import Mathlib

/-!
Verification development for the news-deduplication system.

The JavaScript sources are shallowly embedded: strings are Lean `String`
(reasoned about through their character lists), numeric scores are `ℚ`
(`ℝ` only where the code takes square roots), timestamps are `Int`
milliseconds, and the Mongo store is a record of lists.  JS regular
expressions over `\w` / `\s` are modelled on their ASCII meaning, and
`String.prototype.toLowerCase` by `Char.toLower` (basic-latin lowering),
which is what the inputs of interest exercise.
-/

namespace NewsDedup

/-! ## Character classes used by the regexes `[^\w\s]` and `\s+` -/

/-- ASCII word character, the `\w` class: letters, digits, underscore. -/
def isWordChar (c : Char) : Bool :=
  c.isAlphanum || c = '_'

/-- ASCII whitespace, the `\s` class restricted to the characters the
feeds produce: space, tab, line feed, carriage return. -/
def isSpaceChar (c : Char) : Bool :=
  c = ' ' || c = '\t' || c = '\n' || c = '\r'

/-- Lowercasing of a character list, modelling `toLowerCase()`. -/
def lowerChars (l : List Char) : List Char :=
  l.map Char.toLower

/-- Model of `.replace(/[^\w\s]/g, '')` in `normalizeForHashing`:
characters that are neither word nor whitespace are deleted. -/
def stripPunct (l : List Char) : List Char :=
  l.filter (fun c => isWordChar c || isSpaceChar c)

/-- Model of `.replace(/[^\w\s]/g, ' ')` in the engine's `normalizeText`:
characters that are neither word nor whitespace become spaces. -/
def punctToSpace (l : List Char) : List Char :=
  l.map (fun c => if isWordChar c || isSpaceChar c then c else ' ')

/-- One step of word splitting: whitespace opens a new fragment, any
other character is prepended to the current head fragment. -/
def splitStep (c : Char) (acc : List (List Char)) : List (List Char) :=
  if isSpaceChar c then [] :: acc
  else
    match acc with
    | [] => [[c]]
    | w :: ws => (c :: w) :: ws

/-- Fragments of a character list at whitespace boundaries (empty
fragments included). -/
def splitWsRaw (l : List Char) : List (List Char) :=
  l.foldr splitStep []

/-- Split a character list into its maximal whitespace-free words,
dropping all whitespace; models `.split(/\s+/)` composed with removal of
the empty fragments. -/
def splitWs (l : List Char) : List (List Char) :=
  (splitWsRaw l).filter (fun w => w ≠ [])

/-- Re-join words with single spaces; together with `splitWs` this models
`.replace(/\s+/g, ' ').trim()`. -/
def joinWords : List (List Char) → List Char
  | [] => []
  | [w] => w
  | w :: ws => w ++ ' ' :: joinWords ws

/-- The character-list normalization underlying `normalizeForHashing`:
lowercase, delete punctuation, collapse whitespace runs, trim. -/
def normHashChars (l : List Char) : List Char :=
  joinWords (splitWs (stripPunct (lowerChars l)))

/-- `NewsProcessor.normalizeForHashing`: lowercase, remove `[^\w\s]`,
collapse `\s+` to single spaces, trim. -/
def normalizeForHashing (s : String) : String :=
  ⟨normHashChars s.data⟩

/-- The engine's `normalizeText` helper: lowercase, turn `[^\w\s]` into
spaces, collapse whitespace, trim. -/
def normalizeText (s : String) : String :=
  ⟨joinWords (splitWs (punctToSpace (lowerChars s.data)))⟩

/-- JS template fallback `${content || summary}` used when hashing: an
empty or missing `content` falls back to `summary`, and a missing
`summary` renders as the literal string `"null"`. -/
def jsOrNull (content summary : Option String) : String :=
  match content with
  | some s => if s = "" then (match summary with | some t => t | none => "null") else s
  | none => match summary with | some t => t | none => "null"

/-- JS fallback `(content || summary || '')` used by the alert manager. -/
def jsOrEmpty (content summary : Option String) : String :=
  match content with
  | some s => if s = "" then (match summary with | some t => t | none => "") else s
  | none => match summary with | some t => t | none => ""

/-- `NewsProcessor.generateContentHash`: digest of the normalized
`title ⧺ " " ⧺ (content || summary)`.  The cryptographic digest (an
external library call) is modelled as an injective function, here the
identity on the normalized string. -/
def generateContentHash (title : String) (content summary : Option String) : String :=
  normalizeForHashing (title ++ " " ++ jsOrNull content summary)

/-! ## Data model -/

/-- Extracted entity; similarity only reads the name. -/
structure Entity where
  name : String
deriving DecidableEq, Repr

/-- An article as persisted in the `articles` collection.  `publishedAt`
is the timestamp in milliseconds; `insertedAt` records store insertion
order. -/
structure Article where
  id : Nat
  url : String
  title : String
  content : Option String
  summary : Option String
  source : String
  category : String
  tags : List String
  entities : List Entity
  contentHash : String
  publishedAt : Int
  insertedAt : Nat
  processed : Bool
  duplicateChecked : Bool
  isDuplicate : Bool
  originalArticleId : Option Nat
  alertSent : Bool
deriving DecidableEq, Repr

/-- A record of the `duplicates` collection as built by
`DeduplicationEngine.processDuplicates` and by the hash short-circuit in
`NewsProcessor.processArticle`. -/
structure DupLink where
  originalArticleId : Option Nat
  duplicateArticleId : Option Nat
  duplicateUrl : Option String
  similarityScore : ℚ
  detectionMethod : String
deriving DecidableEq, Repr

/-- The slice of the store the claims touch. -/
structure Store where
  articles : List Article
  duplicates : List DupLink
deriving DecidableEq, Repr

/-! ## Generic string helpers shared by the services -/

/-- Substring containment on character lists, modelling
`String.prototype.includes`. -/
def containsSub (hay needle : List Char) : Bool :=
  match hay with
  | [] => needle = []
  | _ :: rest => needle.isPrefixOf hay || containsSub rest needle

/-- `includes` on strings (case-sensitive). -/
def strIncludes (hay needle : String) : Bool :=
  containsSub hay.data needle.data

/-- Lowercased string, modelling `toLowerCase()`. -/
def lowerStr (s : String) : String :=
  ⟨lowerChars s.data⟩

/-! ## DeduplicationEngine: similarity signals (rational-valued) -/

/-- Jaccard similarity over the word sets of two normalized texts,
modelling `DeduplicationEngine.jaccardSimilarity` (the inputs are
already whitespace-collapsed, so `split(' ')` is word splitting).  The
engine only calls it on non-empty normalized texts, so the union is
non-empty there; Lean's `0/0 = 0` convention covers the unreachable
empty-empty case. -/
def jaccardSimilarity (t1 t2 : String) : ℚ :=
  let s1 := (splitWs t1.data).dedup
  let s2 := (splitWs t2.data).dedup
  let inter := (s1.filter (fun w => w ∈ s2)).length
  let union := (s1 ++ s2.filter (fun w => w ∉ s1)).length
  (inter : ℚ) / (union : ℚ)

/-- `DeduplicationEngine.calculateTextSimilarity`.  The external
`string-similarity` Dice coefficient is passed in as `dice`; the guards
and the 0.4/0.6 blend are the engine's own. -/
def calculateTextSimilarity (dice : String → String → ℚ) (t1 t2 : String) : ℚ :=
  if t1 = "" || t2 = "" then 0
  else
    let n1 := normalizeText t1
    let n2 := normalizeText t2
    if n1.length = 0 || n2.length = 0 then 0
    else jaccardSimilarity n1 n2 * (4/10) + dice n1 n2 * (6/10)

/-- `DeduplicationEngine.calculateEntitySimilarity`: Jaccard over
lowercased entity-name sets; `0` when either side is empty. -/
def calculateEntitySimilarity (entities1 entities2 : List Entity) : ℚ :=
  if entities1.length = 0 || entities2.length = 0 then 0
  else
    let names1 := (entities1.map (fun e => lowerStr e.name)).dedup
    let names2 := (entities2.map (fun e => lowerStr e.name)).dedup
    let inter := (names1.filter (fun n => n ∈ names2)).length
    let union := (names1 ++ names2.filter (fun n => n ∉ names1)).length
    (inter : ℚ) / (union : ℚ)

/-- `DeduplicationEngine.calculateTemporalProximity`:
`max(0, 1 − |Δt| / 24h)` with `Δt` in hours. -/
def calculateTemporalProximity (date1 date2 : Int) : ℚ :=
  let hoursDiff : ℚ := (|date1 - date2| : ℤ) / (1000 * 60 * 60)
  max 0 (1 - hoursDiff / 24)

/-- `DeduplicationEngine.calculateSourceAlignment`: 0.4 for same source,
0.3 for same category, plus 0.3 times tag overlap divided by the larger
tag-set size, capped at 1.0. -/
def calculateSourceAlignment (a1 a2 : Article) : ℚ :=
  let base : ℚ :=
    (if a1.source = a2.source then (4/10 : ℚ) else 0) +
    (if a1.category = a2.category then (3/10 : ℚ) else 0)
  let tags1 := a1.tags.dedup
  let tags2 := a2.tags.dedup
  let tagOverlap := (tags1.filter (fun t => t ∈ tags2)).length
  let maxTags := max tags1.length tags2.length
  let score :=
    if maxTags > 0 then base + ((tagOverlap : ℚ) / (maxTags : ℚ)) * (3/10) else base
  min score 1

/-! ## DeduplicationEngine: combined scoring -/

/-- The threshold table built in the engine's constructor.
`contentSimilarity` and `semanticSimilarity` both read
`config.deduplication.similarityThreshold`. -/
structure Thresholds where
  contentHash : ℚ
  titleSimilarity : ℚ
  contentSimilarity : ℚ
  entitySimilarity : ℚ
  semanticSimilarity : ℚ
deriving DecidableEq, Repr

/-- `DeduplicationEngine` constructor thresholds for a configured
`similarityThreshold`. -/
def mkThresholds (similarityThreshold : ℚ) : Thresholds :=
  { contentHash := 1, titleSimilarity := 9/10,
    contentSimilarity := similarityThreshold, entitySimilarity := 8/10,
    semanticSimilarity := similarityThreshold }

/-- One entry of the sorted similarity list handed to
`identifyDuplicates`: a candidate with its overall score and primary
method. -/
structure SimEntry where
  candidate : Article
  overallScore : ℚ
  method : String
deriving DecidableEq, Repr

/-- A confirmed duplicate as pushed by `identifyDuplicates`
(`confidence` is the overall score). -/
structure DupEntry where
  article : Article
  method : String
  confidence : ℚ
deriving DecidableEq, Repr

/-- The `switch` in `identifyDuplicates` that picks the threshold for a
primary method.  There is no `entity_similarity` case: it falls through
to the `default` branch together with `content_similarity`. -/
def thresholdFor (th : Thresholds) (method : String) : ℚ :=
  if method = "content_hash" then th.contentHash
  else if method = "title_similarity" then th.titleSimilarity
  else if method = "semantic_similarity" then th.semanticSimilarity
  else th.contentSimilarity

/-- `DeduplicationEngine.identifyDuplicates`: keep the candidates whose
overall score reaches the threshold of their primary method. -/
def identifyDuplicates (th : Thresholds) (sims : List SimEntry) : List DupEntry :=
  sims.filterMap (fun s =>
    if s.overallScore ≥ thresholdFor th s.method then
      some { article := s.candidate, method := s.method, confidence := s.overallScore }
    else none)

/-! ## DeduplicationEngine: original election and link insertion -/

/-- The `reduce` in `processDuplicates` electing the earliest-published
article; on ties the earlier element of the traversal list wins. -/
def electOriginal (a : Article) (rest : List Article) : Article :=
  rest.foldl
    (fun earliest current =>
      if current.publishedAt < earliest.publishedAt then current else earliest) a

/-- `DeduplicationEngine.markAsUnique` flag update. -/
def markAsUnique (a : Article) : Article :=
  { a with processed := true, duplicateChecked := true, isDuplicate := false }

/-- `DeduplicationEngine.markAsDuplicate` flag update. -/
def markAsDuplicate (a : Article) (originalId : Nat) : Article :=
  { a with processed := true, duplicateChecked := true, isDuplicate := true,
           originalArticleId := some originalId }

/-- The `DuplicateLink` records built inside `processDuplicates`: one
per matched candidate, all pointing at the elected original. -/
def dupLinksFor (article : Article) (dups : List DupEntry) : List DupLink :=
  dups.map (fun d =>
    { originalArticleId :=
        some (electOriginal article (dups.map (fun x => x.article))).id
      duplicateArticleId := some d.article.id
      duplicateUrl := none
      similarityScore := d.confidence
      detectionMethod := d.method : DupLink })

/-- `DeduplicationEngine.processDuplicates`: elect the original among
the new article and the matched candidates, insert one `DuplicateLink`
per matched candidate pointing at the elected original, then flag the
new article.  Returns the inserted links and the updated article. -/
def processDuplicates (article : Article) (dups : List DupEntry) :
    List DupLink × Article :=
  if article.id = (electOriginal article (dups.map (fun d => d.article))).id then
    (dupLinksFor article dups, markAsUnique article)
  else
    (dupLinksFor article dups,
     markAsDuplicate article (electOriginal article (dups.map (fun d => d.article))).id)

/-! ## NewsProcessor: ingestion short-circuits -/

/-- The fields of a raw feed item that reach the duplicate
short-circuits of `NewsProcessor.processArticle`. -/
structure RawArticle where
  url : String
  title : String
  content : Option String
  summary : Option String
  source : String
  category : String
  tags : List String
  publishedAt : Int
deriving DecidableEq, Repr

/-- `NewsProcessor.processArticle` up to persistence: drop on a known
URL; on a known content hash record a `DuplicateLink` with a `null`
duplicate id and drop; otherwise insert the article with
`duplicateChecked = false`.  Returns the new store and the article when
one was ingested. -/
def processArticleNP (store : Store) (raw : RawArticle) (freshId : Nat) :
    Store × Option Article :=
  if (store.articles.find? (fun a => a.url = raw.url)).isSome then (store, none)
  else
    let h := generateContentHash raw.title raw.content raw.summary
    match store.articles.find? (fun a => a.contentHash = h) with
    | some original =>
        ({ store with
            duplicates := store.duplicates ++
              [{ originalArticleId := some original.id
                 duplicateArticleId := none
                 duplicateUrl := some raw.url
                 similarityScore := 1
                 detectionMethod := "content_hash" }] }, none)
    | none =>
        let article : Article :=
          { id := freshId, url := raw.url, title := raw.title,
            content := raw.content, summary := raw.summary,
            source := raw.source, category := raw.category, tags := raw.tags,
            entities := [], contentHash := h, publishedAt := raw.publishedAt,
            insertedAt := store.articles.length,
            processed := false, duplicateChecked := false, isDuplicate := false,
            originalArticleId := none, alertSent := false }
        ({ store with articles := store.articles ++ [article] }, some article)

/-! ## AlertManager -/

/-- Alert-manager configuration (cooldown in milliseconds). -/
structure AMConfig where
  maxAlertsPerHour : Nat
  cooldownMs : Int
deriving DecidableEq, Repr

/-- A queued alert; only the fields the claims read. -/
structure Alert where
  id : Nat
  articleId : Nat
  title : String
  source : String
  category : String
  priority : String
  createdAt : Int
deriving DecidableEq, Repr

/-- Alert-manager state: `history` holds `(trackingKey, time)` pairs as
written by `trackAlert`; `queue` the pending alerts; `created` is the
ghost trace of every alert object built by `processAlert`. -/
structure AMState where
  nextId : Nat
  history : List (String × Int)
  queue : List Alert
  created : List Alert
deriving DecidableEq, Repr

/-- Initial alert-manager state. -/
def initialAMState : AMState :=
  { nextId := 0, history := [], queue := [], created := [] }

/-- `AlertManager.generateArticleKey`: source plus the first three
title words longer than three characters, lowercased and
punctuation-stripped, joined with underscores. -/
def generateArticleKey (title source : String) : String :=
  let words := (splitWs (stripPunct (lowerChars title.data))).map
    (fun w => (⟨w⟩ : String))
  let titleWords := ((words.filter (fun w => w.length > 3)).take 3)
  source ++ "_" ++ String.intercalate "_" titleWords

/-- `AlertManager.checkRateLimit`: the number of tracked alerts inside
the trailing hour must be strictly below `maxAlertsPerHour`. -/
def checkRateLimit (cfg : AMConfig) (now : Int) (history : List (String × Int)) : Bool :=
  ((history.filter (fun e => e.2 > now - 3600000)).length < cfg.maxAlertsPerHour : Bool)

/-- `AlertManager.isInCooldown`: some tracked key contains this
article's key and is younger than the cooldown period. -/
def isInCooldown (cfg : AMConfig) (now : Int) (history : List (String × Int))
    (title source : String) : Bool :=
  history.any (fun e =>
    strIncludes e.1 (generateArticleKey title source) && now - e.2 < cfg.cooldownMs)

/-- The trusted source list of `meetsQualityThreshold`. -/
def trustedSources : List String :=
  ["Reuters", "Bloomberg", "TechCrunch", "Wall Street Journal"]

/-- `AlertManager.meetsQualityThreshold`: integer score from content
length, entities, category, trusted source and freshness; admit at 3. -/
def meetsQualityThreshold (now : Int) (a : Article) : Bool :=
  let contentLength := (jsOrEmpty a.content a.summary).length
  let s1 : Nat := if contentLength > 500 then 2 else if contentLength > 200 then 1 else 0
  let s2 : Nat := if a.entities.length > 0 then 1 else 0
  let s3 : Nat := if a.category ∈ ["business", "technology", "breaking"] then 2 else 0
  let s4 : Nat := if a.source ∈ trustedSources then 1 else 0
  let s5 : Nat := if now - a.publishedAt < 7200000 then 1 else 0
  s1 + s2 + s3 + s4 + s5 ≥ 3

/-- Breaking-news title keywords of `calculatePriority`. -/
def breakingKeywords : List String :=
  ["breaking", "urgent", "alert", "developing"]

/-- Business-impact title keywords of `calculatePriority`. -/
def highImpactKeywords : List String :=
  ["merger", "acquisition", "ipo", "bankruptcy", "ceo", "funding"]

/-- Matcher for the tail of the money regexp after `$` and one digit:
any run of digits and commas followed by the literal `million`. -/
def digitsThenMillion (l : List Char) : Bool :=
  match l with
  | [] => false
  | c :: rest =>
      ("million".data.isPrefixOf (c :: rest)) ||
      ((c.isDigit || c = ',') && digitsThenMillion rest)

/-- Matcher for `\$[0-9]{1,}[0-9,]*million` on a lowercased character
list. -/
def dollarMillion (l : List Char) : Bool :=
  match l with
  | [] => false
  | c :: rest =>
      (c = '$' && (match rest with
        | [] => false
        | d :: rest2 => d.isDigit && digitsThenMillion rest2)) ||
      dollarMillion rest

/-- The money test `/(billion|\$[0-9]{1,}[0-9,]*million)/i` of
`calculatePriority`, applied to `content || summary || ''`. -/
def hasMoneyAmount (text : String) : Bool :=
  let l := lowerChars text.data
  containsSub l "billion".data || dollarMillion l

/-- `AlertManager.calculatePriority`: sequential upgrades on keywords
and money amounts, then the category chain, which runs last and
overwrites the earlier result for `breaking`, `business` and
`entertainment` categories. -/
def calculatePriority (a : Article) : String :=
  let titleLower := lowerStr a.title
  let p1 := if breakingKeywords.any (fun k => strIncludes titleLower k)
            then "high" else "medium"
  let p2 := if highImpactKeywords.any (fun k => strIncludes titleLower k)
            then "high" else p1
  let p3 := if hasMoneyAmount (jsOrEmpty a.content a.summary) then "high" else p2
  if a.category = "breaking" then "high"
  else if a.category = "business" then "medium"
  else if a.category = "entertainment" then "low"
  else p3

/-- `AlertManager.shouldSendAlert`: rate limit, then cooldown, then
quality. -/
def shouldSendAlert (cfg : AMConfig) (now : Int) (st : AMState) (a : Article) : Bool :=
  checkRateLimit cfg now st.history &&
  !isInCooldown cfg now st.history a.title a.source &&
  meetsQualityThreshold now a

/-- `AlertManager.processAlert`: filtered articles leave the state
unchanged; admitted ones queue a new alert created `now`. -/
def processAlert (cfg : AMConfig) (now : Int) (st : AMState) (a : Article) : AMState :=
  if shouldSendAlert cfg now st a then
    let alert : Alert :=
      { id := st.nextId, articleId := a.id, title := a.title, source := a.source,
        category := a.category, priority := calculatePriority a, createdAt := now }
    { st with nextId := st.nextId + 1, queue := st.queue ++ [alert],
              created := st.created ++ [alert] }
  else st

/-- `AlertManager.trackAlert`: the tracking key stored with a dispatch
time. -/
def trackingKey (alert : Alert) : String :=
  toString alert.id ++ "_" ++ generateArticleKey alert.title alert.source

/-- One round of `processAlertQueue`/`sendAlert` at time `now`: pop the
head alert and track it.  Channel dispatch itself is external I/O. -/
def sendAlertStep (now : Int) (st : AMState) : AMState :=
  match st.queue with
  | [] => st
  | alert :: rest =>
      { st with queue := rest, history := st.history ++ [(trackingKey alert, now)] }

/-! ## Cosine similarity (real-valued, `DeduplicationEngine.cosineSimilarity`) -/

/-- Dot product of two vectors traversed in lockstep. -/
def dotList : List ℝ → List ℝ → ℝ
  | a :: as, b :: bs => a * b + dotList as bs
  | _, _ => 0

/-- Sum of squares of a vector. -/
def sumSq (l : List ℝ) : ℝ :=
  dotList l l

/-- `DeduplicationEngine.cosineSimilarity`: 0 on length mismatch or zero
magnitude, else the cosine.  Floating-point arithmetic is modelled by
exact reals, so the `NaN` guard becomes the zero-magnitude branch. -/
noncomputable def cosineSimilarity (a b : List ℝ) : ℝ :=
  if a.length ≠ b.length then 0
  else
    let magnitude := Real.sqrt (sumSq a) * Real.sqrt (sumSq b)
    if magnitude = 0 then 0 else dotList a b / magnitude

/-- Guard structure of `calculateContentSimilarity`: preprocess both
sides, return 0 when either processed text is shorter than 10
characters, otherwise the TF-IDF cosine (externally computed here,
passed as `tfidfSim`). -/
def calculateContentSimilarity (preprocess : String → String)
    (tfidfSim : String → String → ℚ) (a1 a2 : Article) : ℚ :=
  let content1 := preprocess (jsOrEmpty a1.content a1.summary)
  let content2 := preprocess (jsOrEmpty a2.content a2.summary)
  if content1.length < 10 || content2.length < 10 then 0
  else tfidfSim content1 content2

/-! ## Spec-side definitions used to compare code against the claims -/

/-- Spec claim threshold table (claim C4 wording): hash 1.0, title 0.9,
semantic 0.85, entity 0.8, content the configured threshold. -/
def specThresholdFor (similarityThreshold : ℚ) (method : String) : ℚ :=
  if method = "content_hash" then 1
  else if method = "title_similarity" then 9/10
  else if method = "semantic_similarity" then 85/100
  else if method = "entity_similarity" then 8/10
  else similarityThreshold

/-- The threshold table the code actually applies (amended claim C4):
hash 1.0, title 0.9, and the configured similarity threshold for every
other method, including `entity_similarity` and
`semantic_similarity`. -/
def amendedThreshold (similarityThreshold : ℚ) (method : String) : ℚ :=
  if method = "content_hash" then 1
  else if method = "title_similarity" then 9/10
  else similarityThreshold

/-- Spec formula for source alignment (claim C8 wording): the tag term
is the Jaccard similarity, intersection over union. -/
def specSourceAlignJaccard (a1 a2 : Article) : ℚ :=
  let tags1 := a1.tags.dedup
  let tags2 := a2.tags.dedup
  let inter := (tags1.filter (fun t => t ∈ tags2)).length
  let union := (tags1 ++ tags2.filter (fun t => t ∉ tags1)).length
  (if a1.source = a2.source then (4/10 : ℚ) else 0) +
  (if a1.category = a2.category then (3/10 : ℚ) else 0) +
  ((inter : ℚ) / (union : ℚ)) * (3/10)

/-- Closed form of the source alignment the code computes (amended
claim C8): the tag term divides the overlap by the larger set size. -/
def amendedSourceAlign (a1 a2 : Article) : ℚ :=
  let tags1 := a1.tags.dedup
  let tags2 := a2.tags.dedup
  let overlap := (tags1.filter (fun t => t ∈ tags2)).length
  let maxTags := max tags1.length tags2.length
  (if a1.source = a2.source then (4/10 : ℚ) else 0) +
  (if a1.category = a2.category then (3/10 : ℚ) else 0) +
  (if maxTags > 0 then ((overlap : ℚ) / (maxTags : ℚ)) * (3/10) else 0)

/-- Residue of a string after discarding punctuation and whitespace and
lowercasing; two strings with equal residues differ only in
punctuation, letter case, or whitespace (claim C10 wording). -/
def caseFoldWordChars (s : String) : List Char :=
  (lowerChars s.data).filter isWordChar

/-- The relation of claim C10: the inputs differ only in punctuation,
letter case, or whitespace. -/
def differOnlyPCW (x y : String) : Bool :=
  caseFoldWordChars x = caseFoldWordChars y

/-! ## Concrete instances for the counterexamples -/

/-- Article with every field at a neutral default, updated per test. -/
def baseArticle : Article :=
  { id := 0, url := "", title := "", content := none, summary := none,
    source := "", category := "", tags := [], entities := [],
    contentHash := "", publishedAt := 0, insertedAt := 0,
    processed := false, duplicateChecked := false, isDuplicate := false,
    originalArticleId := none, alertSent := false }

/-- Stored article A of scenario C1 (its hash is the normalization of
its title and content). -/
def artA1 : Article :=
  { baseArticle with
    id := 1, url := "http://a/1", title := "Acme Wins",
    content := some "Big deal", contentHash := "acme wins big deal",
    publishedAt := 1000 }

/-- Store holding only A before B arrives. -/
def storeC1 : Store :=
  { articles := [artA1], duplicates := [] }

/-- Later item B of scenario C1: same content as A up to case and
punctuation, different URL. -/
def rawB1 : RawArticle :=
  { url := "http://b/2", title := "ACME wins!", content := some "BIG deal.",
    summary := none, source := "b", category := "news", tags := [],
    publishedAt := 2000 }

/-- Earlier-published candidate of scenarios C2 and C3. -/
def artA2 : Article :=
  { baseArticle with
    id := 1, url := "http://a/2", title := "story",
    publishedAt := 50, insertedAt := 0 }

/-- Newly processed article of scenarios C2 and C3, published later. -/
def artB2 : Article :=
  { baseArticle with
    id := 2, url := "http://b/2x", title := "story again",
    publishedAt := 100, insertedAt := 1 }

/-- Matched-duplicate list of scenarios C2 and C3: the single candidate
A with a content-similarity score of 0.9. -/
def dupsC23 : List DupEntry :=
  [{ article := artA2, method := "content_similarity", confidence := 9/10 }]

/-- Scored candidate of scenario C4: primary method entity similarity,
overall score 0.82. -/
def simC4 : SimEntry :=
  { candidate := baseArticle, overallScore := 82/100, method := "entity_similarity" }

/-- Alert-manager configuration of scenario C6: at most two alerts per
hour, five-minute cooldown. -/
def cfgC6 : AMConfig :=
  { maxAlertsPerHour := 2, cooldownMs := 300000 }

/-- Reference time of scenario C6. -/
def tC6 : Int := 10000000000

/-- Articles of scenario C6: three distinct fresh business stories that
pass the quality gate. -/
def alertArt (i : Nat) (title : String) : Article :=
  { baseArticle with
    id := i, title := title, source := "SrcA",
    category := "business", entities := [{ name := "acme" }],
    publishedAt := tC6 }

/-- State after the three admissions of scenario C6 arrive back to back,
before any dispatch runs. -/
def sC6 : AMState :=
  processAlert cfgC6 tC6
    (processAlert cfgC6 tC6
      (processAlert cfgC6 tC6 initialAMState (alertArt 1 "alpha beta"))
      (alertArt 2 "gamma delta"))
    (alertArt 3 "epsilon zeta")

/-- Article of scenario C7: business-impact keyword in the title, but
category `business`. -/
def artMerger : Article :=
  { baseArticle with
    id := 7, title := "Acme merger", category := "business",
    content := some "deal talk" }

/-- First article of scenario C8 (tags share one of two/two). -/
def artT1 : Article :=
  { baseArticle with
    id := 8, source := "s1", category := "c1",
    tags := ["a", "b"] }

/-- Second article of scenario C8. -/
def artT2 : Article :=
  { baseArticle with
    id := 9, source := "s2", category := "c2",
    tags := ["b", "c"] }

/-! ## Character-level lemmas -/

theorem toNat_ofNat_small {n : Nat} (h : n < 55296) : (Char.ofNat n).toNat = n := by
  have hv : n.isValidChar := Or.inl h
  rw [Char.ofNat, dif_pos hv]
  simp only [Char.ofNatAux, Char.toNat, UInt32.toNat]
  rfl

theorem toLower_toLower (c : Char) : c.toLower.toLower = c.toLower := by
  simp only [Char.toLower]
  by_cases h : c.toNat ≥ 65 ∧ c.toNat ≤ 90
  · rw [if_pos h]
    have ht : (Char.ofNat (c.toNat + 32)).toNat = c.toNat + 32 :=
      toNat_ofNat_small (by omega)
    rw [if_neg]
    rw [ht]
    omega
  · rw [if_neg h, if_neg h]

/-! ## Word-splitting lemmas -/

theorem splitWsRaw_cons (a : Char) (as : List Char) :
    splitWsRaw (a :: as) = splitStep a (splitWsRaw as) := rfl

theorem mem_of_mem_splitWsRaw :
    ∀ {l w : List Char}, w ∈ splitWsRaw l → ∀ {c : Char}, c ∈ w → c ∈ l := by
  intro l
  induction l with
  | nil =>
      intro w hw c hc
      simp [splitWsRaw] at hw
  | cons a as ih =>
      intro w hw c hc
      rw [splitWsRaw_cons] at hw
      unfold splitStep at hw
      by_cases hs : isSpaceChar a
      · rw [if_pos hs] at hw
        rcases List.mem_cons.mp hw with h | h
        · subst h; cases hc
        · exact List.mem_cons_of_mem _ (ih h hc)
      · rw [if_neg hs] at hw
        cases hraw : splitWsRaw as with
        | nil =>
            rw [hraw] at hw
            simp at hw
            subst hw
            simp at hc
            rw [hc]
            exact List.mem_cons_self _ _
        | cons wh wt =>
            rw [hraw] at hw
            rcases List.mem_cons.mp hw with h | h
            · subst h
              rcases List.mem_cons.mp hc with h2 | h2
              · rw [h2]; exact List.mem_cons_self _ _
              · exact List.mem_cons_of_mem _
                  (ih (hraw ▸ List.mem_cons_self wh wt) h2)
            · exact List.mem_cons_of_mem _
                  (ih (hraw ▸ List.mem_cons_of_mem wh h) hc)

theorem nonspace_of_mem_splitWsRaw :
    ∀ {l w : List Char}, w ∈ splitWsRaw l → ∀ {c : Char}, c ∈ w →
      isSpaceChar c = false := by
  intro l
  induction l with
  | nil =>
      intro w hw c hc
      simp [splitWsRaw] at hw
  | cons a as ih =>
      intro w hw c hc
      rw [splitWsRaw_cons] at hw
      unfold splitStep at hw
      by_cases hs : isSpaceChar a
      · rw [if_pos hs] at hw
        rcases List.mem_cons.mp hw with h | h
        · subst h; cases hc
        · exact ih h hc
      · rw [if_neg hs] at hw
        cases hraw : splitWsRaw as with
        | nil =>
            rw [hraw] at hw
            simp at hw
            subst hw
            simp at hc
            subst hc
            simpa using hs
        | cons wh wt =>
            rw [hraw] at hw
            rcases List.mem_cons.mp hw with h | h
            · subst h
              rcases List.mem_cons.mp hc with h2 | h2
              · subst h2; simpa using hs
              · exact ih (hraw ▸ List.mem_cons_self wh wt) h2
            · exact ih (hraw ▸ List.mem_cons_of_mem wh h) hc

theorem foldr_splitStep_word_nil :
    ∀ {w : List Char}, w ≠ [] → (∀ c ∈ w, isSpaceChar c = false) →
      w.foldr splitStep [] = [w] := by
  intro w
  induction w with
  | nil => intro h; exact absurd rfl h
  | cons c cs ih =>
      intro _ hns
      cases cs with
      | nil =>
          simp [splitStep, hns c (List.mem_cons_self c [])]
      | cons d ds =>
          have hrec := ih (by simp) (fun x hx => hns x (List.mem_cons_of_mem c hx))
          simp only [List.foldr_cons] at hrec ⊢
          rw [hrec]
          simp [splitStep, hns c (List.mem_cons_self c (d :: ds))]

theorem foldr_splitStep_word_cons :
    ∀ {w : List Char}, w ≠ [] → (∀ c ∈ w, isSpaceChar c = false) →
      ∀ (h : List Char) (t : List (List Char)),
        w.foldr splitStep (h :: t) = (w ++ h) :: t := by
  intro w
  induction w with
  | nil => intro h; exact absurd rfl h
  | cons c cs ih =>
      intro _ hns h t
      cases cs with
      | nil =>
          simp [splitStep, hns c (List.mem_cons_self c [])]
      | cons d ds =>
          have hrec := ih (by simp) (fun x hx => hns x (List.mem_cons_of_mem c hx)) h t
          simp only [List.foldr_cons] at hrec ⊢
          rw [hrec]
          simp [splitStep, hns c (List.mem_cons_self c (d :: ds))]

/-- Words that are non-empty and whitespace-free. -/
def CleanWords (ws : List (List Char)) : Prop :=
  ∀ w ∈ ws, w ≠ [] ∧ ∀ c ∈ w, isSpaceChar c = false

theorem splitWsRaw_joinWords {ws : List (List Char)} (h : CleanWords ws) :
    splitWsRaw (joinWords ws) = ws := by
  induction ws with
  | nil => simp [joinWords, splitWsRaw]
  | cons w ws ih =>
      cases ws with
      | nil =>
          have hw := h w (List.mem_cons_self w [])
          simpa [joinWords, splitWsRaw] using
            foldr_splitStep_word_nil hw.1 hw.2
      | cons w2 rest =>
          have hw := h w (List.mem_cons_self w (w2 :: rest))
          have hrest : CleanWords (w2 :: rest) :=
            fun x hx => h x (List.mem_cons_of_mem w hx)
          have ihr := ih hrest
          have step1 : splitWsRaw (joinWords (w :: w2 :: rest))
              = w.foldr splitStep (splitStep ' '
                  (splitWsRaw (joinWords (w2 :: rest)))) := by
            show (joinWords (w :: w2 :: rest)).foldr splitStep [] = _
            rw [show joinWords (w :: w2 :: rest)
                  = w ++ ' ' :: joinWords (w2 :: rest) from rfl]
            rw [List.foldr_append]
            rfl
          rw [step1, ihr]
          rw [show splitStep ' ' (w2 :: rest) = [] :: w2 :: rest by
            simp [splitStep, isSpaceChar]]
          rw [foldr_splitStep_word_cons hw.1 hw.2]
          simp

theorem splitWs_joinWords {ws : List (List Char)} (h : CleanWords ws) :
    splitWs (joinWords ws) = ws := by
  unfold splitWs
  rw [splitWsRaw_joinWords h]
  apply List.filter_eq_self.mpr
  intro w hw
  exact decide_eq_true (h w hw).1

theorem cleanWords_splitWs (l : List Char) : CleanWords (splitWs l) := by
  intro w hw
  unfold splitWs at hw
  have hmem := List.mem_of_mem_filter hw
  have hne : w ≠ [] := by
    have := List.of_mem_filter hw
    simpa using this
  exact ⟨hne, fun c hc => nonspace_of_mem_splitWsRaw hmem hc⟩

theorem mem_joinWords {ws : List (List Char)} {c : Char} (h : c ∈ joinWords ws) :
    c = ' ' ∨ ∃ w ∈ ws, c ∈ w := by
  induction ws with
  | nil => cases h
  | cons w ws ih =>
      cases ws with
      | nil =>
          right
          exact ⟨w, List.mem_cons_self w [], h⟩
      | cons w2 rest =>
          simp only [joinWords] at h
          rcases List.mem_append.mp h with h1 | h1
          · exact Or.inr ⟨w, List.mem_cons_self _ _, h1⟩
          · rcases List.mem_cons.mp h1 with h2 | h2
            · exact Or.inl h2
            · rcases ih h2 with h3 | ⟨w3, hw3, hc3⟩
              · exact Or.inl h3
              · exact Or.inr ⟨w3, List.mem_cons_of_mem _ hw3, hc3⟩

theorem mapEqSelf {α : Type} (f : α → α) :
    ∀ (l : List α), (∀ x ∈ l, f x = x) → l.map f = l := by
  intro l
  induction l with
  | nil => intro _; rfl
  | cons a as ih =>
      intro h
      simp only [List.map_cons, h a (List.mem_cons_self a as),
        ih (fun x hx => h x (List.mem_cons_of_mem a hx))]

/-! ## Idempotence of the hashing normalization -/

theorem mem_normHashChars {l : List Char} {c : Char} (h : c ∈ normHashChars l) :
    c = ' ' ∨ c ∈ stripPunct (lowerChars l) := by
  unfold normHashChars at h
  rcases mem_joinWords h with h1 | ⟨w, hw, hc⟩
  · exact Or.inl h1
  · have := mem_of_mem_splitWsRaw (List.mem_of_mem_filter hw) hc
    exact Or.inr this

theorem lowerChars_normHashChars (l : List Char) :
    lowerChars (normHashChars l) = normHashChars l := by
  apply mapEqSelf
  intro c hc
  rcases mem_normHashChars hc with h | h
  · subst h; decide
  · have h2 : c ∈ lowerChars l := List.mem_of_mem_filter h
    rcases List.mem_map.mp h2 with ⟨d, _, hd⟩
    rw [← hd]
    exact toLower_toLower d

theorem stripPunct_normHashChars (l : List Char) :
    stripPunct (normHashChars l) = normHashChars l := by
  apply List.filter_eq_self.mpr
  intro c hc
  rcases mem_normHashChars hc with h | h
  · subst h; decide
  · have hp := List.of_mem_filter h
    simpa using hp

theorem normHashChars_idem (l : List Char) :
    normHashChars (normHashChars l) = normHashChars l := by
  conv_lhs => rw [normHashChars, lowerChars_normHashChars, stripPunct_normHashChars]
  rw [normHashChars, splitWs_joinWords (cleanWords_splitWs _)]

theorem normalizeForHashing_idem (s : String) :
    normalizeForHashing (normalizeForHashing s) = normalizeForHashing s := by
  unfold normalizeForHashing
  have : (⟨normHashChars s.data⟩ : String).data = normHashChars s.data := rfl
  rw [this, normHashChars_idem]

/-! ## Election lemmas (`processDuplicates`'s `reduce`) -/

theorem electOriginal_cons (a b : Article) (l : List Article) :
    electOriginal a (b :: l)
      = electOriginal (if b.publishedAt < a.publishedAt then b else a) l := by
  simp [electOriginal, List.foldl_cons]

theorem electOriginal_mem (a : Article) (l : List Article) :
    electOriginal a l ∈ a :: l := by
  induction l generalizing a with
  | nil => simp [electOriginal]
  | cons b bs ih =>
      rw [electOriginal_cons]
      by_cases hb : b.publishedAt < a.publishedAt
      · rw [if_pos hb]
        rcases List.mem_cons.mp (ih b) with h | h
        · rw [h]; exact List.mem_cons_of_mem _ (List.mem_cons_self _ _)
        · exact List.mem_cons_of_mem _ (List.mem_cons_of_mem _ h)
      · rw [if_neg hb]
        rcases List.mem_cons.mp (ih a) with h | h
        · rw [h]; exact List.mem_cons_self _ _
        · exact List.mem_cons_of_mem _ (List.mem_cons_of_mem _ h)

theorem electOriginal_le (a : Article) (l : List Article) :
    ∀ m ∈ a :: l, (electOriginal a l).publishedAt ≤ m.publishedAt := by
  induction l generalizing a with
  | nil =>
      intro m hm
      rcases List.mem_cons.mp hm with h | h
      · rw [h]; simp [electOriginal]
      · cases h
  | cons b bs ih =>
      intro m hm
      rw [electOriginal_cons]
      by_cases hb : b.publishedAt < a.publishedAt
      · rw [if_pos hb]
        have hba := ih b
        rcases List.mem_cons.mp hm with h | h
        · rw [h]
          have := hba b (List.mem_cons_self b bs)
          omega
        · rcases List.mem_cons.mp h with h2 | h2
          · rw [h2]; exact hba b (List.mem_cons_self b bs)
          · exact hba m (List.mem_cons_of_mem _ h2)
      · rw [if_neg hb]
        have haa := ih a
        rcases List.mem_cons.mp hm with h | h
        · rw [h]; exact haa a (List.mem_cons_self a bs)
        · rcases List.mem_cons.mp h with h2 | h2
          · rw [h2]
            have := haa a (List.mem_cons_self a bs)
            omega
          · exact haa m (List.mem_cons_of_mem _ h2)

theorem electOriginal_first (a : Article) (l : List Article) :
    (a :: l).find?
        (fun x => x.publishedAt ≤ (electOriginal a l).publishedAt)
      = some (electOriginal a l) := by
  induction l generalizing a with
  | nil =>
      simp [electOriginal]
  | cons b bs ih =>
      rw [electOriginal_cons]
      by_cases hb : b.publishedAt < a.publishedAt
      · rw [if_pos hb]
        have hmin := electOriginal_le b bs b (List.mem_cons_self b bs)
        have hna : ¬ (a.publishedAt ≤ (electOriginal b bs).publishedAt) := by omega
        rw [List.find?_cons_of_neg, ih b]
        simpa using hna
      · rw [if_neg hb]
        have iha := ih a
        by_cases hpa : a.publishedAt ≤ (electOriginal a bs).publishedAt
        · have hfa : (a :: bs).find?
              (fun x => x.publishedAt ≤ (electOriginal a bs).publishedAt)
                = some a := by
            rw [List.find?_cons_of_pos]
            simpa using hpa
          have hae : a = electOriginal a bs := by
            have := hfa.symm.trans iha
            exact Option.some.inj this
          rw [List.find?_cons_of_pos]
          · rw [← hae]
          · simpa using hpa
        · have hmin := electOriginal_le a bs a (List.mem_cons_self a bs)
          have hbs : bs.find?
              (fun x => x.publishedAt ≤ (electOriginal a bs).publishedAt)
                = some (electOriginal a bs) := by
            rw [List.find?_cons_of_neg] at iha
            · exact iha
            · simpa using hpa
          have hnb : ¬ (b.publishedAt ≤ (electOriginal a bs).publishedAt) := by omega
          rw [List.find?_cons_of_neg, List.find?_cons_of_neg, hbs]
          · simpa using hnb
          · simpa using hpa

/-! ## Cosine bounds (Cauchy-Schwarz for the list dot product) -/

theorem sumSq_nonneg (l : List ℝ) : 0 ≤ sumSq l := by
  induction l with
  | nil => simp [sumSq, dotList]
  | cons x xs ih =>
      have hx : sumSq (x :: xs) = x * x + sumSq xs := rfl
      rw [hx]
      nlinarith [mul_self_nonneg x]

theorem dot_sq_le (a : List ℝ) : ∀ (b : List ℝ),
    (dotList a b) ^ 2 ≤ sumSq a * sumSq b := by
  induction a with
  | nil =>
      intro b
      simp [dotList, sumSq]
  | cons x as ih =>
      intro b
      cases b with
      | nil =>
          have h1 : dotList (x :: as) [] = 0 := rfl
          rw [h1]
          have := sumSq_nonneg (x :: as)
          simp [sumSq, dotList]
      | cons y bs =>
          have ihd := ih bs
          have hA := sumSq_nonneg as
          have hB := sumSq_nonneg bs
          have hd : dotList (x :: as) (y :: bs) = x * y + dotList as bs := rfl
          have hsa : sumSq (x :: as) = x * x + sumSq as := rfl
          have hsb : sumSq (y :: bs) = y * y + sumSq bs := rfl
          rw [hd, hsa, hsb]
          rcases eq_or_lt_of_le hA with hA0 | hApos
          · have hdz : dotList as bs = 0 := by
              have h2 : (dotList as bs) ^ 2 ≤ 0 := by
                rw [← hA0] at ihd
                simpa using ihd
              have h3 : (dotList as bs) ^ 2 = 0 :=
                le_antisymm h2 (sq_nonneg _)
              exact pow_eq_zero_iff (by norm_num) |>.mp h3
            rw [hdz, ← hA0]
            nlinarith [mul_self_nonneg x, mul_self_nonneg y,
              mul_nonneg (mul_self_nonneg x) hB]
          · nlinarith [sq_nonneg (x * dotList as bs - y * sumSq as),
              mul_nonneg (add_nonneg (mul_self_nonneg x) hA)
                (sub_nonneg.mpr ihd), hApos, hB]

theorem abs_dot_le (a b : List ℝ) :
    |dotList a b| ≤ Real.sqrt (sumSq a) * Real.sqrt (sumSq b) := by
  have h := dot_sq_le a b
  have h2 : Real.sqrt ((dotList a b) ^ 2) ≤ Real.sqrt (sumSq a * sumSq b) :=
    Real.sqrt_le_sqrt h
  rwa [Real.sqrt_sq_eq_abs, Real.sqrt_mul (sumSq_nonneg a)] at h2

theorem cosineSimilarity_bounds (a b : List ℝ) :
    -1 ≤ cosineSimilarity a b ∧ cosineSimilarity a b ≤ 1 := by
  unfold cosineSimilarity
  by_cases hlen : a.length ≠ b.length
  · rw [if_pos hlen]; norm_num
  · rw [if_neg hlen]
    simp only
    by_cases hm : Real.sqrt (sumSq a) * Real.sqrt (sumSq b) = 0
    · rw [if_pos hm]; norm_num
    · rw [if_neg hm]
      have hpos : 0 < Real.sqrt (sumSq a) * Real.sqrt (sumSq b) := by
        have hnn : 0 ≤ Real.sqrt (sumSq a) * Real.sqrt (sumSq b) :=
          mul_nonneg (Real.sqrt_nonneg _) (Real.sqrt_nonneg _)
        exact lt_of_le_of_ne hnn (Ne.symm hm)
      have habs := abs_dot_le a b
      rcases abs_le.mp habs with ⟨hlo, hhi⟩
      constructor
      · rw [le_div_iff₀ hpos]
        linarith
      · rw [div_le_one hpos]
        exact hhi

/-! ## Range helpers for the rational signals -/

theorem interLength_le_unionLength {α : Type} [DecidableEq α] (s1 s2 : List α) :
    (s1.filter (fun w => w ∈ s2)).length ≤
      (s1 ++ s2.filter (fun w => w ∉ s1)).length := by
  rw [List.length_append]
  exact Nat.le_trans (List.length_filter_le _ _) (Nat.le_add_right _ _)

theorem jaccardSimilarity_bounds (t1 t2 : String) :
    0 ≤ jaccardSimilarity t1 t2 ∧ jaccardSimilarity t1 t2 ≤ 1 := by
  unfold jaccardSimilarity
  simp only
  constructor
  · positivity
  · apply div_le_one_of_le₀
    · refine Nat.cast_le.mpr ?_
      rw [List.length_append]
      exact Nat.le_trans (List.length_filter_le _ _) (Nat.le_add_right _ _)
    · positivity

theorem calculateTextSimilarity_bounds (dice : String → String → ℚ)
    (hdice : ∀ x y, 0 ≤ dice x y ∧ dice x y ≤ 1) (t1 t2 : String) :
    0 ≤ calculateTextSimilarity dice t1 t2 ∧
      calculateTextSimilarity dice t1 t2 ≤ 1 := by
  unfold calculateTextSimilarity
  by_cases hg : t1 = "" || t2 = ""
  · rw [if_pos hg]; norm_num
  · rw [if_neg hg]
    simp only
    by_cases hg2 : (normalizeText t1).length = 0 || (normalizeText t2).length = 0
    · rw [if_pos hg2]; norm_num
    · rw [if_neg hg2]
      have hj := jaccardSimilarity_bounds (normalizeText t1) (normalizeText t2)
      have hd := hdice (normalizeText t1) (normalizeText t2)
      constructor
      · nlinarith [hj.1, hd.1]
      · nlinarith [hj.2, hd.2]

theorem calculateEntitySimilarity_bounds (e1 e2 : List Entity) :
    0 ≤ calculateEntitySimilarity e1 e2 ∧ calculateEntitySimilarity e1 e2 ≤ 1 := by
  unfold calculateEntitySimilarity
  by_cases hg : e1.length = 0 || e2.length = 0
  · rw [if_pos hg]; norm_num
  · rw [if_neg hg]
    simp only
    set s1 := (e1.map (fun e => lowerStr e.name)).dedup with hs1
    set s2 := (e2.map (fun e => lowerStr e.name)).dedup with hs2
    have hle := interLength_le_unionLength s1 s2
    have he1 : e1 ≠ [] := by
      intro h
      rw [h] at hg
      simp at hg
    have hs1ne : s1 ≠ [] := by
      rw [hs1]
      simp only [ne_eq, List.dedup_eq_nil, List.map_eq_nil_iff]
      exact he1
    have hupos : 0 < (s1 ++ s2.filter (fun w => w ∉ s1)).length := by
      rw [List.length_append]
      have := List.length_pos.mpr hs1ne
      omega
    constructor
    · positivity
    · rw [div_le_one (by exact_mod_cast hupos)]
      exact_mod_cast hle

theorem calculateTemporalProximity_bounds (d1 d2 : Int) :
    0 ≤ calculateTemporalProximity d1 d2 ∧ calculateTemporalProximity d1 d2 ≤ 1 := by
  unfold calculateTemporalProximity
  constructor
  · exact le_max_left 0 _
  · apply max_le
    · norm_num
    · have habs : (0 : ℚ) ≤ ((|d1 - d2| : ℤ) : ℚ) := by
        exact_mod_cast abs_nonneg (d1 - d2)
      have : (0 : ℚ) ≤ ((|d1 - d2| : ℤ) : ℚ) / (1000 * 60 * 60) / 24 := by
        positivity
      linarith

theorem tagTerm_le {a1 a2 : Article} :
    (if max a1.tags.dedup.length a2.tags.dedup.length > 0 then
        ((((a1.tags.dedup.filter (fun t => t ∈ a2.tags.dedup)).length : ℚ)) /
          ((max a1.tags.dedup.length a2.tags.dedup.length : ℕ) : ℚ)) * (3/10)
      else 0) ≤ 3/10 := by
  by_cases hm : max a1.tags.dedup.length a2.tags.dedup.length > 0
  · rw [if_pos hm]
    have hinter : (a1.tags.dedup.filter (fun t => t ∈ a2.tags.dedup)).length ≤
        max a1.tags.dedup.length a2.tags.dedup.length :=
      Nat.le_trans (List.length_filter_le _ _) (Nat.le_max_left _ _)
    have hq : (((a1.tags.dedup.filter (fun t => t ∈ a2.tags.dedup)).length : ℚ)) /
        ((max a1.tags.dedup.length a2.tags.dedup.length : ℕ) : ℚ) ≤ 1 := by
      rw [div_le_one (by exact_mod_cast hm)]
      exact_mod_cast hinter
    nlinarith [hq]
  · rw [if_neg hm]; norm_num

theorem calculateSourceAlignment_eq (a1 a2 : Article) :
    calculateSourceAlignment a1 a2 = amendedSourceAlign a1 a2 := by
  unfold calculateSourceAlignment amendedSourceAlign
  simp only
  set base : ℚ :=
    (if a1.source = a2.source then (4/10 : ℚ) else 0) +
    (if a1.category = a2.category then (3/10 : ℚ) else 0) with hbase
  set tagTerm : ℚ :=
    (if max a1.tags.dedup.length a2.tags.dedup.length > 0 then
        ((((a1.tags.dedup.filter (fun t => t ∈ a2.tags.dedup)).length : ℚ)) /
          ((max a1.tags.dedup.length a2.tags.dedup.length : ℕ) : ℚ)) * (3/10)
      else 0) with htag
  have hb1 : base ≤ 7/10 := by
    rw [hbase]
    by_cases h1 : a1.source = a2.source <;> by_cases h2 : a1.category = a2.category <;>
      simp [h1, h2] <;> norm_num
  have hb0 : 0 ≤ base := by
    rw [hbase]
    by_cases h1 : a1.source = a2.source <;> by_cases h2 : a1.category = a2.category <;>
      simp [h1, h2] <;> norm_num
  have ht := @tagTerm_le a1 a2
  rw [← htag] at ht
  have hsplit : (if max a1.tags.dedup.length a2.tags.dedup.length > 0 then
      base + ((((a1.tags.dedup.filter (fun t => t ∈ a2.tags.dedup)).length : ℚ)) /
        ((max a1.tags.dedup.length a2.tags.dedup.length : ℕ) : ℚ)) * (3/10)
    else base) = base + tagTerm := by
    rw [htag]
    by_cases hm : max a1.tags.dedup.length a2.tags.dedup.length > 0
    · rw [if_pos hm, if_pos hm]
    · rw [if_neg hm, if_neg hm, add_zero]
  rw [hsplit]
  clear_value base tagTerm
  exact min_eq_left (by linarith)

theorem calculateSourceAlignment_bounds (a1 a2 : Article) :
    0 ≤ calculateSourceAlignment a1 a2 ∧ calculateSourceAlignment a1 a2 ≤ 1 := by
  constructor
  · unfold calculateSourceAlignment
    simp only
    apply le_min
    · have hb0 : (0:ℚ) ≤
          (if a1.source = a2.source then (4/10 : ℚ) else 0) +
          (if a1.category = a2.category then (3/10 : ℚ) else 0) := by
        by_cases h1 : a1.source = a2.source <;>
          by_cases h2 : a1.category = a2.category <;> simp [h1, h2] <;> norm_num
      by_cases hm : max a1.tags.dedup.length a2.tags.dedup.length > 0
      · rw [if_pos hm]
        have : (0:ℚ) ≤ ((((a1.tags.dedup.filter
            (fun t => t ∈ a2.tags.dedup)).length : ℚ)) /
            ((max a1.tags.dedup.length a2.tags.dedup.length : ℕ) : ℚ)) * (3/10) := by
          positivity
        linarith
      · rw [if_neg hm]
        exact hb0
    · norm_num
  · unfold calculateSourceAlignment
    simp only
    exact min_le_right _ 1

/-! ## Small structural helpers for the claim theorems -/

theorem processDuplicates_fst (article : Article) (dups : List DupEntry) :
    (processDuplicates article dups).1 = dups.map (fun d =>
      { originalArticleId :=
          some (electOriginal article (dups.map (fun x => x.article))).id
        duplicateArticleId := some d.article.id
        duplicateUrl := none
        similarityScore := d.confidence
        detectionMethod := d.method : DupLink }) := by
  unfold processDuplicates
  split <;> rfl

theorem thresholdFor_mk (simT : ℚ) (m : String) :
    thresholdFor (mkThresholds simT) m = amendedThreshold simT m := by
  unfold thresholdFor mkThresholds amendedThreshold
  by_cases h1 : m = "content_hash" <;> by_cases h2 : m = "title_similarity" <;>
    by_cases h3 : m = "semantic_similarity" <;> simp [h1, h2, h3]

theorem normalizeForHashing_congr {x y : String} (h : lowerStr x = lowerStr y) :
    normalizeForHashing x = normalizeForHashing y := by
  have hdata : lowerChars x.data = lowerChars y.data := congrArg String.data h
  unfold normalizeForHashing normHashChars
  rw [hdata]

/-! ## Claim C1 -/

/-- Claim C1 counterexample: in the identical-repost scenario the
later-arriving item B with A's content hash is NOT ingested (the article
list is unchanged and nothing is returned); instead a `DuplicateLink`
with a null `duplicateArticleId` is recorded.  This refutes the claim
that B is ingested and flagged `is_duplicate = true` with a link from A
to B. -/
theorem c1_counterexample :
    (processArticleNP storeC1 rawB1 2).2 = none ∧
    (processArticleNP storeC1 rawB1 2).1.articles = [artA1] ∧
    (processArticleNP storeC1 rawB1 2).1.duplicates =
      [{ originalArticleId := some 1, duplicateArticleId := none,
         duplicateUrl := some "http://b/2", similarityScore := 1,
         detectionMethod := "content_hash" }] := by
  decide

/-- Claim C1 (amended): when an incoming item's URL is new but its
content hash matches a stored article A, `NewsProcessor.processArticle`
discards the item without storing it and records one `DuplicateLink`
with `originalArticleId = A.id`, `duplicateArticleId = null`,
`duplicateUrl` the item's URL, method `content_hash` and score 1.0. -/
theorem c1_amended (store : Store) (raw : RawArticle) (freshId : Nat) (orig : Article)
    (hurl : store.articles.find? (fun a => a.url = raw.url) = none)
    (hhash : store.articles.find? (fun a =>
        a.contentHash = generateContentHash raw.title raw.content raw.summary)
      = some orig) :
    processArticleNP store raw freshId =
      ({ store with duplicates := store.duplicates ++
          [{ originalArticleId := some orig.id, duplicateArticleId := none,
             duplicateUrl := some raw.url, similarityScore := 1,
             detectionMethod := "content_hash" }] }, none) := by
  unfold processArticleNP
  rw [hurl]
  simp only [Option.isSome_none, Bool.false_eq_true, if_false, hhash]

/-- Claim C1 witness: the amended behavior at the concrete
identical-repost scenario. -/
theorem c1_amended_witness :
    processArticleNP storeC1 rawB1 2 =
      ({ storeC1 with duplicates := storeC1.duplicates ++
          [{ originalArticleId := some artA1.id, duplicateArticleId := none,
             duplicateUrl := some rawB1.url, similarityScore := 1,
             detectionMethod := "content_hash" }] }, none) :=
  c1_amended storeC1 rawB1 2 artA1 (by decide) (by decide)

/-! ## Claim C2 -/

/-- Claim C2 counterexample: when the elected original is one of the
matched candidates, `processDuplicates` inserts a link whose original
and duplicate ids are both that candidate's id — a self-link, violating
`original_article_id ≠ duplicate_article_id`. -/
theorem c2_counterexample :
    (processDuplicates artB2 dupsC23).1 =
      [{ originalArticleId := some 1, duplicateArticleId := some 1,
         duplicateUrl := none, similarityScore := 9/10,
         detectionMethod := "content_similarity" }] := rfl

/-- Claim C2 (amended): every link inserted by `processDuplicates`
points from the elected original, carries the candidate's id and
confidence, and satisfies
`original.published_at ≤ duplicate.published_at`; but when the elected
original is itself a matched candidate, the inserted link for it has
equal original and duplicate ids, and the ingest-stage hash
short-circuit inserts links whose duplicate id is null. -/
theorem c2_amended (article : Article) (dups : List DupEntry) (d : DupEntry)
    (hd : d ∈ dups) :
    ∃ link ∈ (processDuplicates article dups).1,
      link.originalArticleId =
        some (electOriginal article (dups.map (fun x => x.article))).id ∧
      link.duplicateArticleId = some d.article.id ∧
      link.similarityScore = d.confidence ∧
      (electOriginal article (dups.map (fun x => x.article))).publishedAt
        ≤ d.article.publishedAt := by
  rw [processDuplicates_fst]
  refine ⟨_, List.mem_map_of_mem _ hd, rfl, rfl, rfl, ?_⟩
  exact electOriginal_le article (dups.map (fun x => x.article)) d.article
    (List.mem_cons_of_mem _ (List.mem_map_of_mem _ hd))

/-- Claim C2 witness: the amended statement at the concrete C2/C3
scenario. -/
theorem c2_amended_witness :
    ∃ link ∈ (processDuplicates artB2 dupsC23).1,
      link.originalArticleId =
        some (electOriginal artB2 (dupsC23.map (fun x => x.article))).id ∧
      link.duplicateArticleId =
        some ({ article := artA2, method := "content_similarity",
                confidence := 9/10 : DupEntry }).article.id ∧
      link.similarityScore =
        ({ article := artA2, method := "content_similarity",
           confidence := 9/10 : DupEntry }).confidence ∧
      (electOriginal artB2 (dupsC23.map (fun x => x.article))).publishedAt
        ≤ ({ article := artA2, method := "content_similarity",
             confidence := 9/10 : DupEntry }).article.publishedAt :=
  c2_amended artB2 dupsC23
    { article := artA2, method := "content_similarity", confidence := 9/10 }
    (List.mem_cons_self _ _)

/-! ## Claim C3 -/

/-- Claim C3 counterexample: with one earlier-published matched
candidate A, the new article B is a non-original member of the set and
is flagged duplicate, yet no inserted `DuplicateLink` has B as its
duplicate; the only link inserted is the self-link for A.  This refutes
the claim that a link pointing to the original is inserted for each
non-original member. -/
theorem c3_counterexample :
    (processDuplicates artB2 dupsC23).2.isDuplicate = true ∧
    (electOriginal artB2 (dupsC23.map (fun d => d.article))).id = 1 ∧
    ((processDuplicates artB2 dupsC23).1.filter
        (fun l => l.duplicateArticleId = some artB2.id)) = [] := by
  decide

/-- Claim C3 (amended): the elected original is the member of
`{new article} ∪ candidates` with the earliest `published_at`, ties
broken in favor of the element listed first (the new article, then the
candidates in scored order) — not by store insertion time; exactly one
`DuplicateLink` pointing to the original is inserted per matched
candidate (so none for the new article, and a self-link when the
original is a candidate); and the new article is marked
`is_duplicate = false` exactly when it is the elected original. -/
theorem c3_amended (article : Article) (dups : List DupEntry) :
    (electOriginal article (dups.map (fun d => d.article)))
        ∈ article :: dups.map (fun d => d.article) ∧
    (∀ m ∈ article :: dups.map (fun d => d.article),
      (electOriginal article (dups.map (fun d => d.article))).publishedAt
        ≤ m.publishedAt) ∧
    ((article :: dups.map (fun d => d.article)).find?
        (fun x => x.publishedAt ≤
          (electOriginal article (dups.map (fun d => d.article))).publishedAt)
      = some (electOriginal article (dups.map (fun d => d.article)))) ∧
    ((processDuplicates article dups).1 = dups.map (fun d =>
      { originalArticleId :=
          some (electOriginal article (dups.map (fun x => x.article))).id
        duplicateArticleId := some d.article.id
        duplicateUrl := none
        similarityScore := d.confidence
        detectionMethod := d.method : DupLink })) ∧
    ((processDuplicates article dups).2.isDuplicate = false ↔
      article.id = (electOriginal article (dups.map (fun d => d.article))).id) := by
  refine ⟨electOriginal_mem _ _, electOriginal_le _ _, electOriginal_first _ _,
    processDuplicates_fst _ _, ?_⟩
  unfold processDuplicates
  by_cases h : article.id = (electOriginal article (dups.map (fun d => d.article))).id
  · rw [if_pos h]
    simp [markAsUnique, h]
  · rw [if_neg h]
    simp [markAsDuplicate, h]

/-- Claim C3 witness: the minimality part of the amended statement at
the concrete scenario, applied to the candidate A. -/
theorem c3_amended_witness :
    (electOriginal artB2 (dupsC23.map (fun d => d.article))).publishedAt
      ≤ artA2.publishedAt :=
  (c3_amended artB2 dupsC23).2.1 artA2
    (List.mem_cons_of_mem _ (List.mem_cons_self _ _))

/-! ## Claim C4 -/

/-- Claim C4 counterexample: at the default configured threshold 0.85,
a candidate whose primary method is `entity_similarity` with overall
score 0.82 is NOT declared a duplicate, although the claimed per-method
threshold for entity similarity is 0.8 ≤ 0.82.  The switch in
`identifyDuplicates` has no `entity_similarity` case, so the candidate
is held to the content threshold. -/
theorem c4_counterexample :
    identifyDuplicates (mkThresholds (85/100)) [simC4] = [] ∧
    simC4.overallScore ≥ specThresholdFor (85/100) simC4.method := by
  constructor
  · have hth : thresholdFor (mkThresholds (85/100)) simC4.method = 85/100 := rfl
    unfold identifyDuplicates
    rw [show ([simC4] : List SimEntry) = [simC4] from rfl]
    rw [List.filterMap_cons]
    rw [if_neg]
    · rfl
    · rw [hth]
      norm_num [simC4]
  · have hspec : specThresholdFor (85/100) simC4.method = 8/10 := rfl
    rw [hspec]
    norm_num [simC4]

/-- Claim C4 (amended): the threshold applied to a scored candidate is
1.0 for `content_hash`, 0.9 for `title_similarity`, and the configured
similarity threshold (default 0.85) for every other method — including
`entity_similarity` (not 0.8) and `semantic_similarity` (not a fixed
0.85); a candidate is declared a duplicate iff its overall score
reaches that threshold. -/
theorem c4_amended (simT : ℚ) (sims : List SimEntry) (s : SimEntry) (hs : s ∈ sims) :
    thresholdFor (mkThresholds simT) "entity_similarity" = simT ∧
    thresholdFor (mkThresholds simT) "semantic_similarity" = simT ∧
    (({ article := s.candidate, method := s.method,
        confidence := s.overallScore : DupEntry })
        ∈ identifyDuplicates (mkThresholds simT) sims ↔
      s.overallScore ≥ amendedThreshold simT s.method) := by
  refine ⟨by rw [thresholdFor_mk]; rfl, by rw [thresholdFor_mk]; rfl, ?_⟩
  unfold identifyDuplicates
  rw [List.mem_filterMap]
  constructor
  · rintro ⟨x, hx, heq⟩
    by_cases hc : x.overallScore ≥ thresholdFor (mkThresholds simT) x.method
    · rw [if_pos hc] at heq
      have h1 : x.method = s.method := congrArg DupEntry.method (Option.some.inj heq)
      have h2 : x.overallScore = s.overallScore :=
        congrArg DupEntry.confidence (Option.some.inj heq)
      rw [h1, h2, thresholdFor_mk] at hc
      exact hc
    · rw [if_neg hc] at heq
      cases heq
  · intro hge
    refine ⟨s, hs, ?_⟩
    rw [if_pos (by rw [thresholdFor_mk]; exact hge)]

/-- Claim C4 witness: the amended statement at the concrete entity
candidate and the default threshold. -/
theorem c4_amended_witness :
    thresholdFor (mkThresholds (85/100)) "entity_similarity" = 85/100 ∧
    thresholdFor (mkThresholds (85/100)) "semantic_similarity" = 85/100 ∧
    (({ article := simC4.candidate, method := simC4.method,
        confidence := simC4.overallScore : DupEntry })
        ∈ identifyDuplicates (mkThresholds (85/100)) [simC4] ↔
      simC4.overallScore ≥ amendedThreshold (85/100) simC4.method) :=
  c4_amended (85/100) [simC4] simC4 (List.mem_cons_self _ _)

/-! ## Claim C5 -/

/-- Claim C6 counterexample: with `max_alerts_per_hour = 2`, three
admissible articles arriving before any dispatch are ALL admitted
(the rate-limit gate counts dispatch-tracked alerts, which is still
empty), so three alerts are created inside one hour — refuting both the
claim's admission condition (counting alerts created in the trailing
hour) and the claimed per-window bound. -/
theorem c6_counterexample :
    cfgC6.maxAlertsPerHour = 2 ∧
    sC6.queue.length = 3 ∧
    (sC6.created.filter (fun al =>
        al.createdAt > tC6 - 3600000 ∧ al.createdAt ≤ tC6)).length = 3 := by
  decide

/-- Claim C6 (amended): at every admission decision the gate requires
the number of alerts TRACKED at dispatch within the trailing hour to be
strictly below `max_alerts_per_hour`; because tracking happens only when
an alert is dispatched, the number of alerts created in an hour can
exceed the limit when admissions occur before earlier alerts are
dispatched. -/
theorem c6_amended (cfg : AMConfig) (now : Int) (st : AMState) (a : Article)
    (h : shouldSendAlert cfg now st a = true) :
    (st.history.filter (fun e => e.2 > now - 3600000)).length
      < cfg.maxAlertsPerHour := by
  unfold shouldSendAlert checkRateLimit at h
  simp only [Bool.and_eq_true, decide_eq_true_eq] at h
  exact h.1.1

/-- Claim C6 witness: the first admission of the concrete scenario
passes the gate over an empty tracking history. -/
theorem c6_amended_witness :
    (initialAMState.history.filter
        (fun e => e.2 > tC6 - 3600000)).length < cfgC6.maxAlertsPerHour :=
  c6_amended cfgC6 tC6 initialAMState (alertArt 1 "alpha beta") (by decide)

/-! ## Claim C7 -/

/-- Claim C7 counterexample: an article whose title contains the
business-impact keyword `merger` but whose category is `business` gets
priority `medium`, not `high`: the category chain runs last and
overwrites the keyword upgrade. -/
theorem c7_counterexample :
    strIncludes (lowerStr artMerger.title) "merger" = true ∧
    artMerger.category = "business" ∧
    calculatePriority artMerger = "medium" := by
  decide

/-- Claim C7 (amended): the category chain is applied last and wins:
`breaking` forces `high`, `business` forces `medium` and
`entertainment` forces `low` regardless of any keyword or monetary
upgrade; only for other categories does the priority become `high` on
breaking-news keywords, business-impact keywords or monetary
magnitudes, and `medium` otherwise. -/
theorem c7_amended (a : Article) :
    calculatePriority a =
      if a.category = "breaking" then "high"
      else if a.category = "business" then "medium"
      else if a.category = "entertainment" then "low"
      else if breakingKeywords.any (fun k => strIncludes (lowerStr a.title) k)
           || highImpactKeywords.any (fun k => strIncludes (lowerStr a.title) k)
           || hasMoneyAmount (jsOrEmpty a.content a.summary) then "high"
      else "medium" := by
  by_cases h1 : a.category = "breaking"
  · simp [calculatePriority, h1]
  · by_cases h2 : a.category = "business"
    · simp [calculatePriority, h1, h2]
    · by_cases h3 : a.category = "entertainment"
      · simp [calculatePriority, h1, h2, h3]
      · by_cases hb : breakingKeywords.any (fun k => strIncludes (lowerStr a.title) k) <;>
          by_cases hi : highImpactKeywords.any
            (fun k => strIncludes (lowerStr a.title) k) <;>
            by_cases hm : hasMoneyAmount (jsOrEmpty a.content a.summary) <;>
              simp [calculatePriority, h1, h2, h3, hb, hi, hm]

/-! ## Claim C8 -/

/-- Claim C8 counterexample: for tag sets `{a,b}` and `{b,c}` with
different sources and categories the code returns
`0.3·(1/2) = 0.15` (overlap over the larger set size), while the
claimed Jaccard formula gives `0.3·(1/3) = 0.1`. -/
theorem c8_counterexample :
    calculateSourceAlignment artT1 artT2 = 3/20 ∧
    specSourceAlignJaccard artT1 artT2 = 1/10 ∧
    calculateSourceAlignment artT1 artT2 ≠ specSourceAlignJaccard artT1 artT2 := by
  have hcode : calculateSourceAlignment artT1 artT2 = 3/20 := by
    simp only [calculateSourceAlignment]
    rw [if_neg (by decide : ¬ artT1.source = artT2.source),
        if_neg (by decide : ¬ artT1.category = artT2.category),
        if_pos (by decide : max artT1.tags.dedup.length artT2.tags.dedup.length > 0),
        show (artT1.tags.dedup.filter (fun t => t ∈ artT2.tags.dedup)).length = 1
          from by decide,
        show max artT1.tags.dedup.length artT2.tags.dedup.length = 2 from by decide]
    rw [show (0 : ℚ) + 0 + ((1 : ℕ) : ℚ) / ((2 : ℕ) : ℚ) * (3/10) = 3/20 from by
      push_cast
      norm_num]
    rw [min_eq_left (by norm_num)]
  have hspec : specSourceAlignJaccard artT1 artT2 = 1/10 := by
    simp only [specSourceAlignJaccard]
    rw [if_neg (by decide : ¬ artT1.source = artT2.source),
        if_neg (by decide : ¬ artT1.category = artT2.category),
        show (artT1.tags.dedup.filter (fun t => t ∈ artT2.tags.dedup)).length = 1
          from by decide,
        show (artT1.tags.dedup ++
            artT2.tags.dedup.filter (fun t => t ∉ artT1.tags.dedup)).length = 3
          from by decide]
    push_cast
    norm_num
  refine ⟨hcode, hspec, ?_⟩
  rw [hcode, hspec]
  norm_num

/-- Claim C8 (amended): the source-alignment signal equals
`0.4·[same source] + 0.3·[same category] + 0.3·(|tags∩| / max(|A|,|B|))`
(0 when both tag sets are empty; the final cap at 1.0 never binds), and
it lies in `[0,1]`. -/
theorem c8_amended (a1 a2 : Article) :
    calculateSourceAlignment a1 a2 = amendedSourceAlign a1 a2 ∧
    0 ≤ calculateSourceAlignment a1 a2 ∧ calculateSourceAlignment a1 a2 ≤ 1 :=
  ⟨calculateSourceAlignment_eq a1 a2, (calculateSourceAlignment_bounds a1 a2).1,
   (calculateSourceAlignment_bounds a1 a2).2⟩

/-! ## Claim C9 -/

/-- Claim C9 counterexample: the engine's cosine similarity returns −1
on the vectors `[1]` and `[−1]`, so the semantic signal is not confined
to `[0,1]`. -/
theorem c9_counterexample :
    cosineSimilarity [(1 : ℝ)] [(-1 : ℝ)] = -1 ∧ ¬ (0 : ℝ) ≤ (-1 : ℝ) := by
  constructor
  · unfold cosineSimilarity
    rw [if_neg (by simp)]
    have hs : sumSq [(1 : ℝ)] = 1 := by
      simp [sumSq, dotList]
    have hs2 : sumSq [(-1 : ℝ)] = 1 := by
      simp [sumSq, dotList]
    rw [hs, hs2]
    simp [dotList, Real.sqrt_one]
  · norm_num

/-- Claim C9 (amended): the rational similarity signals lie in `[0,1]`
— entity, temporal and source alignment unconditionally, and the text
signal whenever the external Dice coefficient it blends lies in `[0,1]`
— and are 0 on empty inputs; the cosine used for `semantic_sim` is
bounded by Cauchy-Schwarz, but only into `[−1,1]`; the single division
is guarded by the zero-magnitude test, so no undefined value arises in
the real-valued model. -/
theorem c9_amended :
    (∀ a b : List ℝ, -1 ≤ cosineSimilarity a b ∧ cosineSimilarity a b ≤ 1) ∧
    (∀ b : List ℝ, cosineSimilarity [] b = 0) ∧
    (∀ (dice : String → String → ℚ) (t : String),
      calculateTextSimilarity dice "" t = 0 ∧ calculateTextSimilarity dice t "" = 0) ∧
    (∀ dice : String → String → ℚ, (∀ x y, 0 ≤ dice x y ∧ dice x y ≤ 1) →
      ∀ t1 t2 : String, 0 ≤ calculateTextSimilarity dice t1 t2 ∧
        calculateTextSimilarity dice t1 t2 ≤ 1) ∧
    (∀ e : List Entity,
      calculateEntitySimilarity [] e = 0 ∧ calculateEntitySimilarity e [] = 0) ∧
    (∀ e1 e2 : List Entity, 0 ≤ calculateEntitySimilarity e1 e2 ∧
      calculateEntitySimilarity e1 e2 ≤ 1) ∧
    (∀ d1 d2 : Int, 0 ≤ calculateTemporalProximity d1 d2 ∧
      calculateTemporalProximity d1 d2 ≤ 1) ∧
    (∀ a1 a2 : Article, 0 ≤ calculateSourceAlignment a1 a2 ∧
      calculateSourceAlignment a1 a2 ≤ 1) ∧
    (∀ (pre : String → String) (tf : String → String → ℚ) (a1 a2 : Article),
      (pre (jsOrEmpty a1.content a1.summary)).length < 10 →
      calculateContentSimilarity pre tf a1 a2 = 0) := by
  refine ⟨cosineSimilarity_bounds, ?_, ?_,
    fun dice hdice t1 t2 => calculateTextSimilarity_bounds dice hdice t1 t2,
    ?_, calculateEntitySimilarity_bounds,
    calculateTemporalProximity_bounds, calculateSourceAlignment_bounds, ?_⟩
  · intro b
    unfold cosineSimilarity
    cases b with
    | nil =>
        rw [if_neg (by simp)]
        simp [sumSq, dotList, Real.sqrt_zero]
    | cons x xs =>
        rw [if_pos (by simp)]
  · intro dice t
    constructor
    · unfold calculateTextSimilarity
      rw [if_pos (by simp)]
    · unfold calculateTextSimilarity
      rw [if_pos (by simp)]
  · intro e
    constructor
    · unfold calculateEntitySimilarity
      rw [if_pos (by simp)]
    · unfold calculateEntitySimilarity
      rw [if_pos (by simp)]
  · intro pre tf a1 a2 hlen
    unfold calculateContentSimilarity
    rw [if_pos]
    simp only [Bool.or_eq_true, decide_eq_true_eq]
    exact Or.inl hlen

/-- Claim C9 witness: the text-similarity bound at a concrete in-range
Dice function, and the content-similarity guard at a concrete
preprocessing function and articles. -/
theorem c9_amended_witness :
    (0 ≤ calculateTextSimilarity (fun _ _ => 1) "ab" "cd" ∧
      calculateTextSimilarity (fun _ _ => 1) "ab" "cd" ≤ 1) ∧
    calculateContentSimilarity (fun _ => "") (fun _ _ => 1)
      baseArticle baseArticle = 0 :=
  ⟨c9_amended.2.2.2.1 (fun _ _ => 1)
      (fun _ _ => ⟨zero_le_one, le_refl 1⟩) "ab" "cd",
   c9_amended.2.2.2.2.2.2.2.2 (fun _ => "") (fun _ _ => 1) baseArticle baseArticle
    (by decide)⟩

/-! ## Claim C10 -/

/-- Claim C10 counterexample: the texts `a b x` and `a.b x` differ only
in punctuation versus whitespace, yet their content hashes differ:
punctuation is deleted outright while whitespace collapses to a space,
so the normalizations are `a b x` and `ab x`. -/
theorem c10_counterexample :
    differOnlyPCW "a b x" "a.b x" = true ∧
    generateContentHash "a b" (some "x") none ≠
      generateContentHash "a.b" (some "x") none := by
  decide

/-- Claim C10 (amended): the hashing normalization is idempotent, and
two hash inputs that agree after lowercasing produce the same content
hash (so letter-case differences never change the hash); but inputs
that differ only in punctuation versus whitespace can hash differently,
because punctuation is deleted while whitespace collapses. -/
theorem c10_amended :
    (∀ s : String, normalizeForHashing (normalizeForHashing s)
      = normalizeForHashing s) ∧
    (∀ (t1 : String) (c1 s1 : Option String) (t2 : String) (c2 s2 : Option String),
      lowerStr (t1 ++ " " ++ jsOrNull c1 s1) = lowerStr (t2 ++ " " ++ jsOrNull c2 s2) →
      generateContentHash t1 c1 s1 = generateContentHash t2 c2 s2) := by
  refine ⟨normalizeForHashing_idem, ?_⟩
  intro t1 c1 s1 t2 c2 s2 h
  unfold generateContentHash
  exact normalizeForHashing_congr h

/-- Claim C10 witness: case-only difference in the title leaves the
content hash unchanged. -/
theorem c10_amended_witness :
    generateContentHash "Acme Wins" (some "Big deal") none =
      generateContentHash "ACME WINS" (some "BIG DEAL") none :=
  c10_amended.2 "Acme Wins" (some "Big deal") none "ACME WINS" (some "BIG DEAL") none
    (by decide)

end NewsDedup
